import Mathlib

/-!
# Verification of the controls-ux schema detection and migration engine

Shallow embedding of the schema detection / migration engine described by
the repository documentation, and of the Control Scripts search filter
from the React UI. Definitions for the migration engine are modelled from
the specification because the Python modules (`schema_manager.py`,
`schema_migration.py`) are not part of the source tree — only their README
documentation and callers are.
-/

namespace ControlsUx

/-- Modelled from the spec: the closed `ColumnType` enumeration of
`schema_manager.py` (§3 data model), which is missing from the source tree. -/
inductive ColumnType where
  | Integer | Float | String | Boolean | DateTime | Unknown
deriving DecidableEq, Repr

/-- Modelled from the spec: `ColumnDescriptor` of `schema_manager.py`
(name, inferred type, nullability, uniqueness, ordinal position, bounded
sample values). -/
structure ColumnDescriptor where
  name : String
  inferredType : ColumnType
  nullable : Bool
  unique : Bool
  ordinalPosition : Nat
  sampleValues : List String
deriving DecidableEq, Repr

/-- Modelled from the spec: `SchemaDescriptor` of `schema_manager.py` —
a provider id plus an ordered sequence of column descriptors. -/
structure SchemaDescriptor where
  providerId : String
  columns : List ColumnDescriptor
deriving DecidableEq, Repr

/-- Modelled from the spec: the `stepType` enumeration of migration steps
in `schema_migration.py`. -/
inductive StepType where
  | AddColumn | RemoveColumn | RenameColumn | ChangeType
  | ReduceSize | IncreasePrecision | AddIndex
deriving DecidableEq, Repr

/-- Modelled from the spec: the Safe/Breaking classification enumeration. -/
inductive Classification where
  | Safe | Breaking
deriving DecidableEq, Repr

/-- Modelled from the spec: `MigrationStep` of `schema_migration.py`. -/
structure MigrationStep where
  stepType : StepType
  columnName : String
  oldValue : String
  newValue : String
  description : String
deriving DecidableEq, Repr

/-- Modelled from the spec: the fixed classification table of the
ChangeClassifier in `schema_migration.py` — no runtime configuration. -/
def classifyStep : StepType → Classification
  | StepType.AddColumn => Classification.Safe
  | StepType.IncreasePrecision => Classification.Safe
  | StepType.AddIndex => Classification.Safe
  | StepType.RemoveColumn => Classification.Breaking
  | StepType.RenameColumn => Classification.Breaking
  | StepType.ChangeType => Classification.Breaking
  | StepType.ReduceSize => Classification.Breaking

/-- Modelled from the spec: plan lifecycle status in `schema_migration.py`. -/
inductive PlanStatus where
  | Pending | Approved | Executing | Executed | Failed | RolledBack
deriving DecidableEq, Repr

/-- Modelled from the spec: the fingerprint of one migration step, the
tuple of its structural fields. -/
def stepFingerprint (s : MigrationStep) : StepType × String × String × String :=
  (s.stepType, s.columnName, s.oldValue, s.newValue)

/-- Modelled from the spec: a plan id — a deterministic hash of providerId
and the ordered step fingerprints, modelled as the injective pairing of
the provider id with that ordered fingerprint list (the hash step itself
is outside the model). -/
abbrev PlanId := String × List (StepType × String × String × String)

/-- Modelled from the spec: compute the deterministic plan id from the
provider id and the ordered steps. -/
def planIdOf (pid : String) (steps : List MigrationStep) : PlanId :=
  (pid, steps.map stepFingerprint)

/-- Modelled from the spec: `MigrationPlan` of `schema_migration.py`. -/
structure MigrationPlan where
  id : PlanId
  providerId : String
  steps : List MigrationStep
  status : PlanStatus
deriving DecidableEq, Repr

/-- Modelled from the spec: a plan is Breaking overall iff any step is
classified Breaking. -/
def planIsBreaking (p : MigrationPlan) : Bool :=
  p.steps.any (fun s => classifyStep s.stepType == Classification.Breaking)

/-- Modelled from the spec: outcome of one execution attempt recorded in the
audit trail of `schema_migration.py`. -/
inductive Outcome where
  | Committed | RolledBack | Failed
deriving DecidableEq, Repr

/-- Modelled from the spec: `AuditRecord` of `schema_migration.py`; the
backup reference is modelled as the snapshotted cache entry itself. -/
structure AuditRecord where
  planId : PlanId
  outcome : Outcome
  backupRef : Option SchemaDescriptor
  errorDetail : Option String
deriving DecidableEq, Repr

/-- The SchemaCache: one persisted descriptor per provider, modelled as an
association list keyed by provider id. -/
abbrev SchemaCache := List (String × SchemaDescriptor)

/-- Look up the cached descriptor of a provider. -/
def lookupEntry (cache : SchemaCache) (pid : String) : Option SchemaDescriptor :=
  (cache.find? (fun e => decide (e.1 = pid))).map (fun e => e.2)

/-- Remove a provider's entry from the cache. -/
def removeEntry (cache : SchemaCache) (pid : String) : SchemaCache :=
  cache.filter (fun e => !decide (e.1 = pid))

/-- Overwrite (or insert) a provider's cache entry. -/
def setEntry (cache : SchemaCache) (pid : String) (d : SchemaDescriptor) : SchemaCache :=
  (pid, d) :: removeEntry cache pid

/-- Restore a provider's entry to a backed-up value (absent means the
provider had no entry before the run). -/
def restoreEntry (cache : SchemaCache) (pid : String) : Option SchemaDescriptor → SchemaCache
  | some d => setEntry cache pid d
  | none => removeEntry cache pid

/-- Modelled from the spec: the type named by a ChangeType step's string
field. -/
def typeOfName (s : String) : ColumnType :=
  if s = "integer" then ColumnType.Integer
  else if s = "float" then ColumnType.Float
  else if s = "boolean" then ColumnType.Boolean
  else if s = "datetime" then ColumnType.DateTime
  else if s = "string" then ColumnType.String
  else ColumnType.Unknown

/-- Modelled from the spec: Apply materializes one step against a cached
descriptor (AddColumn appends a column with a declared default,
RemoveColumn / RenameColumn / ChangeType update the column mapping; the
remaining step kinds do not change the descriptor's structure). -/
def applyStep (d : SchemaDescriptor) (s : MigrationStep) : SchemaDescriptor :=
  match s.stepType with
  | StepType.AddColumn =>
      { d with columns := d.columns ++
          [⟨s.newValue, ColumnType.Unknown, true, false, d.columns.length, []⟩] }
  | StepType.RemoveColumn =>
      { d with columns := d.columns.filter (fun c => !decide (c.name = s.oldValue)) }
  | StepType.RenameColumn =>
      { d with columns := d.columns.map (fun c =>
          if c.name = s.oldValue then { c with name := s.newValue } else c) }
  | StepType.ChangeType =>
      { d with columns := d.columns.map (fun c =>
          if c.name = s.columnName
          then { c with inferredType := typeOfName s.newValue } else c) }
  | _ => d

/-- Apply a list of steps to the provider's cache entry (a provider with no
cached entry is left untouched). -/
def applyPlanToCache (cache : SchemaCache) (pid : String)
    (steps : List MigrationStep) : SchemaCache :=
  match lookupEntry cache pid with
  | some d => setEntry cache pid (steps.foldl applyStep d)
  | none => cache

/-- Fault scenario injected into one executor run: everything succeeds, the
backup fails, step `k` of Applying raises, or Validating detects a
mismatch between the re-fingerprinted descriptor and the plan's target. -/
inductive ExecFault where
  | ok
  | backupFailure
  | applyFailure (k : Nat)
  | validationMismatch
deriving DecidableEq, Repr

/-- Modelled from the spec: the MigrationExecutor state machine of
`schema_migration.py` — backup - apply - validate - commit, restoring the
backup verbatim on any failure during Applying or Validating, and failing
before any mutation when the backup itself fails. Returns the new cache,
the plan's terminal status and the single audit record of the attempt. -/
def runExecutor (cache : SchemaCache) (p : MigrationPlan) (fault : ExecFault) :
    SchemaCache × PlanStatus × AuditRecord :=
  let backup := lookupEntry cache p.providerId
  match fault with
  | ExecFault.backupFailure =>
      (cache, PlanStatus.Failed,
        ⟨p.id, Outcome.Failed, none, some "backup failure"⟩)
  | ExecFault.applyFailure k =>
      let mutated := applyPlanToCache cache p.providerId (p.steps.take k)
      (restoreEntry mutated p.providerId backup, PlanStatus.Failed,
        ⟨p.id, Outcome.Failed, backup, some "apply failure"⟩)
  | ExecFault.validationMismatch =>
      let mutated := applyPlanToCache cache p.providerId p.steps
      (restoreEntry mutated p.providerId backup, PlanStatus.RolledBack,
        ⟨p.id, Outcome.RolledBack, backup,
          some "validation mismatch"⟩)
  | ExecFault.ok =>
      (applyPlanToCache cache p.providerId p.steps, PlanStatus.Executed,
        ⟨p.id, Outcome.Committed, backup, none⟩)

/-- Full engine state: the SchemaCache, the plan store, the append-only
audit log, and the set of providers with an in-flight migration. -/
structure EngineState where
  cache : SchemaCache
  plans : List MigrationPlan
  audit : List AuditRecord
  inFlight : List String
deriving DecidableEq, Repr

/-- Set the stored status of the plan with the given id. -/
def setPlanStatus (plans : List MigrationPlan) (id : PlanId)
    (st : PlanStatus) : List MigrationPlan :=
  plans.map (fun q => if q.id = id then { q with status := st } else q)

/-- One execution attempt at engine level: run the executor, record the
plan's terminal status and append exactly one audit record. -/
def executeAttempt (st : EngineState) (p : MigrationPlan) (fault : ExecFault) :
    EngineState × AuditRecord :=
  let r := runExecutor st.cache p fault
  ({ st with
      cache := r.1
      plans := setPlanStatus st.plans p.id r.2.1
      audit := st.audit ++ [r.2.2] }, r.2.2)

/-- Modelled from the spec: the Scheduler's handling of a freshly planned
drift — store the plan; if it is fully Safe, immediately invoke the
Executor, if it contains a Breaking step, leave it Pending for manual
approval. -/
def schedulerDispatch (st : EngineState) (p : MigrationPlan) (fault : ExecFault) :
    EngineState :=
  if planIsBreaking p then
    { st with plans := st.plans ++ [p] }
  else
    (executeAttempt { st with plans := st.plans ++ [p] } p fault).1

/-- The fingerprint-relevant tuple of one column: name, inferred type,
nullability and uniqueness. -/
def colKey (c : ColumnDescriptor) : String × ColumnType × Bool × Bool :=
  (c.name, c.inferredType, c.nullable, c.unique)

/-- Modelled from the spec: the schema fingerprint of `schema_manager.py`
— a hash over the ordered tuple stream of name+type+nullable+unique per
column, modelled as that injective ordered tuple stream itself (the final
hash step is outside the model). -/
def fingerprint (d : SchemaDescriptor) : List (String × ColumnType × Bool × Bool) :=
  d.columns.map colKey

/-- Swap the columns at positions `i` and `j` of a descriptor (identity
when either position is out of range). -/
def swapColumns (d : SchemaDescriptor) (i j : Nat) : SchemaDescriptor :=
  match d.columns[i]?, d.columns[j]? with
  | some ci, some cj => { d with columns := (d.columns.set i cj).set j ci }
  | _, _ => d

/-- Modelled from the spec: the MigrationPlanner's plan creation — compute
the deterministic id from providerId and the ordered step fingerprints,
return the already-stored plan when one with that id exists, otherwise
create, store and return a fresh Pending plan. -/
def createPlan (plans : List MigrationPlan) (pid : String)
    (steps : List MigrationStep) : MigrationPlan × List MigrationPlan :=
  match plans.find? (fun q => decide (q.id = planIdOf pid steps)) with
  | some q => (q, plans)
  | none =>
      let p : MigrationPlan := ⟨planIdOf pid steps, pid, steps, PlanStatus.Pending⟩
      (p, plans ++ [p])

/-- Modelled from the spec: the persisted plan document's name, a function
of the plan id alone. -/
def planDocName (id : PlanId) : String :=
  "migration_" ++ id.1 ++ ".json"

/-- Result of an execute-plan request. -/
inductive ExecResult where
  | executed (r : AuditRecord)
  | planConflictError
  | planNotFound
deriving DecidableEq, Repr

/-- Find a stored plan by id. -/
def findPlan (plans : List MigrationPlan) (id : PlanId) : Option MigrationPlan :=
  plans.find? (fun q => decide (q.id = id))

/-- Modelled from the spec: the execute-plan request handler of the
migration API — a request for a provider whose migration is already in
flight, or for a plan that is no longer Pending, is rejected with
PlanConflictError and not queued; otherwise the executor runs once. -/
def executePlanRequest (st : EngineState) (id : PlanId) (fault : ExecFault) :
    EngineState × ExecResult :=
  match findPlan st.plans id with
  | none => (st, ExecResult.planNotFound)
  | some p =>
      if st.inFlight.any (fun q => decide (q = p.providerId)) then
        (st, ExecResult.planConflictError)
      else if p.status = PlanStatus.Pending then
        ((executeAttempt st p fault).1,
          ExecResult.executed (executeAttempt st p fault).2)
      else (st, ExecResult.planConflictError)

/-- Modelled from the spec: the error raised by schema detection on an
empty or unreadable sample. -/
inductive SchemaError where
  | SchemaDetectionError
deriving DecidableEq, Repr

/-- The non-empty values of a sampled column. -/
def nonEmptyValues (vals : List String) : List String :=
  vals.filter (fun v => !decide (v = ""))

/-- Modelled from the spec: a type is accepted when at least 95% of the
non-empty sampled values parse under it, expressed as the count comparison
19·total ≤ 20·parsed. -/
def parseRatioOk (parses : String → Bool) (vals : List String) : Bool :=
  decide (19 * (nonEmptyValues vals).length
    ≤ 20 * ((nonEmptyValues vals).filter parses).length)

/-- The fixed priority order of attempted column types (String is the
fall-through). -/
def priorityOrder : List ColumnType :=
  [ColumnType.Integer, ColumnType.Float, ColumnType.Boolean, ColumnType.DateTime]

/-- Modelled from the spec: infer a column's type by attempting Integer,
Float, Boolean and DateTime in priority order, accepting the first type
whose parse ratio reaches 95% and falling through to String. The concrete
per-type value parsers of `schema_manager.py` are abstracted as the
`parses` argument. -/
def inferColumnType (parses : ColumnType → String → Bool)
    (vals : List String) : ColumnType :=
  match priorityOrder.find? (fun t => parseRatioOk (parses t) vals) with
  | some t => t
  | none => ColumnType.String

/-- The values sampled at column position `j`; a row without a `j`-th
field contributes an empty (missing) value. -/
def columnValues (rows : List (List String)) (j : Nat) : List String :=
  rows.map (fun r => r.getD j "")

/-- Number of column positions in a row sample. -/
def numCols (rows : List (List String)) : Nat :=
  rows.foldr (fun r acc => max r.length acc) 0

/-- Modelled from the spec: build the inferred descriptor column at
position `j` — type by priority inference, nullable when some sampled
value is empty or missing, unique when the sampled non-null values are
pairwise distinct. -/
def detectColumn (parses : ColumnType → String → Bool) (names : Nat → String)
    (rows : List (List String)) (j : Nat) : ColumnDescriptor :=
  { name := names j
    inferredType := inferColumnType parses (columnValues rows j)
    nullable := (columnValues rows j).any (fun v => decide (v = ""))
    unique := decide (nonEmptyValues (columnValues rows j)).Nodup
    ordinalPosition := j
    sampleValues := columnValues rows j }

/-- Modelled from the spec: SchemaFingerprinter detection of
`schema_manager.py` — fails with SchemaDetectionError on an empty sample,
otherwise infers one column descriptor per position (column names come
from the header map, abstracted as `names`). -/
def detectSchema (parses : ColumnType → String → Bool) (names : Nat → String)
    (pid : String) (rows : List (List String)) :
    Except SchemaError SchemaDescriptor :=
  if rows.isEmpty then Except.error SchemaError.SchemaDetectionError
  else Except.ok
    ⟨pid, (List.range (numCols rows)).map (detectColumn parses names rows)⟩

/-- Lexicographic order on character sequences (code-point order), the
order behind the documented rename tie-break. -/
def lexLe (a b : List Char) : Bool :=
  match a, b with
  | [], _ => true
  | _ :: _, [] => false
  | c :: a', d :: b' =>
      if c.toNat < d.toNat then true
      else if d.toNat < c.toNat then false
      else lexLe a' b'

/-- Modelled from the spec: type compatibility for rename detection —
equal inferred types, or either side Unknown. -/
def typesCompatible (a b : ColumnType) : Bool :=
  decide (a = b) || decide (a = ColumnType.Unknown) || decide (b = ColumnType.Unknown)

/-- Modelled from the spec: how many of a previous column's sampled values
are also present in a new column's sample. -/
def overlapCount (p n : ColumnDescriptor) : Nat :=
  (p.sampleValues.filter (fun v => decide (v ∈ n.sampleValues))).length

/-- The best overlap count of a previous column against the unmatched new
columns. -/
def bestOverlap (p : ColumnDescriptor) (news : List ColumnDescriptor) : Nat :=
  (news.map (fun n => overlapCount p n)).foldr max 0

/-- Modelled from the spec: the chosen rename target — the first unmatched
new column achieving the best overlap count. -/
def bestTarget (p : ColumnDescriptor) (news : List ColumnDescriptor) :
    Option ColumnDescriptor :=
  news.find? (fun n => decide (overlapCount p n = bestOverlap p news))

/-- Modelled from the spec: the documented fixed threshold policy (0.8) —
the overlap fraction num/den exceeds the threshold iff 4·den < 5·num. -/
def exceedsThreshold (num den : Nat) : Bool := decide (4 * den < 5 * num)

/-- Modelled from the spec: a previous column passes rename detection
against a target when its overlap fraction exceeds the threshold and the
types are compatible. -/
def renamePasses (p n : ColumnDescriptor) : Bool :=
  exceedsThreshold (overlapCount p n) p.sampleValues.length
    && typesCompatible p.inferredType n.inferredType

/-- Modelled from the spec: the previous columns tying with `p` on the
best score for the same rename target `n` — same chosen target, passing
the policy, with cross-multiplied equal overlap fractions. -/
def tiedRivals (p : ColumnDescriptor) (prevs news : List ColumnDescriptor)
    (n : ColumnDescriptor) : List ColumnDescriptor :=
  prevs.filter (fun q =>
    decide (bestTarget q news = some n) && renamePasses q n &&
    decide (overlapCount q n * p.sampleValues.length
      = overlapCount p n * q.sampleValues.length))

/-- Whether `p` is the lexicographically first previous column of a tied
candidate set. -/
def isLexFirst (p : ColumnDescriptor) (l : List ColumnDescriptor) : Bool :=
  l.all (fun q => lexLe p.name.data q.name.data)

/-- The RemoveColumn step the Differ emits for an unmatched previous
column when no rename is detected. -/
def removeStepOf (p : ColumnDescriptor) : MigrationStep :=
  ⟨StepType.RemoveColumn, p.name, p.name, "", "Remove column " ++ p.name⟩

/-- Description of an unambiguous rename step. -/
def renameNote (p n : ColumnDescriptor) : String :=
  "Rename column " ++ p.name ++ " to " ++ n.name

/-- Description of a rename step chosen by the documented tie-break,
recording the ambiguity. -/
def ambiguousRenameNote (p n : ColumnDescriptor) : String :=
  "Rename column " ++ p.name ++ " to " ++ n.name ++
    " (ambiguous: equal-score rename candidates, lexicographically first previous column chosen)"

/-- Modelled from the spec: the Differ's decision for one unmatched
previous column — a single RenameColumn step to the best-overlap target
when the threshold and compatibility policy passes and the column wins
the lexicographic tie-break, otherwise an independent RemoveColumn step;
a tie is recorded in the step description. -/
def renameOrRemove (p : ColumnDescriptor) (prevs news : List ColumnDescriptor) :
    MigrationStep :=
  match bestTarget p news with
  | none => removeStepOf p
  | some n =>
      if renamePasses p n then
        if isLexFirst p (tiedRivals p prevs news n) then
          { stepType := StepType.RenameColumn, columnName := p.name,
            oldValue := p.name, newValue := n.name,
            description := if 2 ≤ (tiedRivals p prevs news n).length
              then ambiguousRenameNote p n else renameNote p n }
        else removeStepOf p
      else removeStepOf p

/-- Concrete example column: `obs_platform`, fully value-overlapping with
`monitoring_platform`. -/
def colObsPlatform : ColumnDescriptor :=
  ⟨"obs_platform", ColumnType.String, false, false, 1, ["ELK", "Splunk"]⟩

/-- Concrete example column: the renamed `monitoring_platform`. -/
def colMonPlatform : ColumnDescriptor :=
  ⟨"monitoring_platform", ColumnType.String, false, false, 1, ["ELK", "Splunk"]⟩

/-- Example parser family for concrete checks: digits for Integer, digits
and at most dots for Float, true/false for Boolean, dash-containing for
DateTime. -/
def parsesEx : ColumnType → String → Bool
  | ColumnType.Integer => fun s => !s.isEmpty && s.all Char.isDigit
  | ColumnType.Float => fun s => !s.isEmpty && s.all (fun c => c.isDigit || c = '.')
  | ColumnType.Boolean => fun s => decide (s = "true") || decide (s = "false")
  | ColumnType.DateTime => fun s => s.any (fun c => c = '-')
  | _ => fun _ => false

/-- Example positional column names. -/
def namesEx : Nat → String := fun j => "col" ++ toString j

/-- Example row sample with a numeric first column (one missing value) and
a textual second column. -/
def rowsEx : List (List String) := [["1", "ELK"], ["2", "Splunk"], ["", "ELK"]]

/-- One step of a control script, as in `ControlScripts.tsx`
(name, docstring, line number, parameters). -/
structure ControlStep where
  name : String
  docstring : String
  lineNumber : Nat
  parameters : List String
deriving DecidableEq, Repr

/-- The scripts map of the Control Scripts view: an ordered map from
script name to its step list (TypeScript `Record<string, ControlStep[]>`). -/
abbrev ScriptsMap := List (String × List ControlStep)

/-- The lowercased character sequence of a string (JavaScript
`toLowerCase`). -/
def lowerChars (s : String) : List Char := s.data.map Char.toLower

/-- Substring containment on character sequences (JavaScript
`String.prototype.includes`). -/
def containsSeq : List Char → List Char → Bool
  | [], needle => needle.isEmpty
  | c :: t, needle => needle.isPrefixOf (c :: t) || containsSeq t needle

/-- JavaScript `!query.trim()`: the query is empty or only whitespace. -/
def isBlankQuery (query : String) : Bool := query.data.all Char.isWhitespace

/-- Step matching of `ControlScripts.tsx` filterScripts: the lowercased
query occurs in the step's name, its docstring, or one of its
parameters. -/
def stepMatches (q : List Char) (s : ControlStep) : Bool :=
  containsSeq (lowerChars s.name) q || containsSeq (lowerChars s.docstring) q
    || s.parameters.any (fun p => containsSeq (lowerChars p) q)

/-- `filterScripts` of `ControlScripts.tsx`: a blank query keeps the whole
map; otherwise a script is kept — with its complete step list — when its
lowercased name contains the lowercased query, or when at least one of
its steps matches. -/
def filterScripts (query : String) (scripts : ScriptsMap) : ScriptsMap :=
  if isBlankQuery query then scripts
  else
    scripts.filter (fun e =>
      containsSeq (lowerChars e.1) (lowerChars query) ||
        decide (0 < (e.2.filter (stepMatches (lowerChars query))).length))

/-- Concrete example control step whose parameter mentions `env`. -/
def stepEnvEx : ControlStep :=
  ⟨"validate_deployment", "Check the deployment", 12, ["env_name"]⟩

/-- Concrete example scripts map. -/
def scriptsMapEx : ScriptsMap :=
  [("deploy_check", [stepEnvEx]), ("unrelated", [⟨"noop", "does nothing", 1, []⟩])]

/-- Concrete example column: the `app_id` identifier column. -/
def colAppId : ColumnDescriptor :=
  ⟨"app_id", ColumnType.String, false, true, 0, ["App A", "App B"]⟩

/-- Concrete example column: the `cost` metric column. -/
def colCost : ColumnDescriptor :=
  ⟨"cost", ColumnType.Float, false, false, 1, ["85", "92"]⟩

/-- Concrete example descriptor for the `observability_v1` provider. -/
def descEx : SchemaDescriptor := ⟨"observability_v1", [colAppId, colCost]⟩

/-- Concrete example cache holding the `observability_v1` descriptor. -/
def cacheEx : SchemaCache := [("observability_v1", descEx)]

/-- Concrete example Breaking step: remove the `cost` column. -/
def stepRemoveEx : MigrationStep :=
  ⟨StepType.RemoveColumn, "cost", "cost", "", "Remove column cost"⟩

/-- Concrete example Safe step: add a `region` column. -/
def stepAddEx : MigrationStep :=
  ⟨StepType.AddColumn, "region", "", "region", "Add new column region"⟩

/-- Concrete example plan with one Breaking step. -/
def planBreakEx : MigrationPlan :=
  ⟨planIdOf "observability_v1" [stepRemoveEx], "observability_v1",
    [stepRemoveEx], PlanStatus.Pending⟩

/-- Concrete example plan with one Safe step. -/
def planSafeEx : MigrationPlan :=
  ⟨planIdOf "observability_v1" [stepAddEx], "observability_v1",
    [stepAddEx], PlanStatus.Pending⟩

/-- Concrete example engine state holding the safe plan, nothing in flight. -/
def engineEx : EngineState := ⟨cacheEx, [planSafeEx], [], []⟩

end ControlsUx

namespace ControlsUx

/-- Looking a provider up after removing an entry: the removed provider is
gone, every other provider is untouched. -/
theorem lookupEntry_removeEntry (cache : SchemaCache) (pid q : String) :
    lookupEntry (removeEntry cache pid) q =
      if q = pid then none else lookupEntry cache q := by
  induction cache with
  | nil => simp [lookupEntry, removeEntry]
  | cons e t ih =>
    by_cases hep : e.1 = pid <;> by_cases heq : e.1 = q <;>
      simp_all [lookupEntry, removeEntry, List.filter_cons, List.find?_cons]

/-- Looking a provider up after setting an entry: the set provider returns
the new descriptor, every other provider is untouched. -/
theorem lookupEntry_cons (e : String × SchemaDescriptor) (t : SchemaCache)
    (q : String) :
    lookupEntry (e :: t) q = if e.1 = q then some e.2 else lookupEntry t q := by
  by_cases h : e.1 = q <;> simp [lookupEntry, List.find?_cons, h]

/-- Looking a provider up after setting an entry: the set provider returns
the new descriptor, every other provider is untouched. -/
theorem lookupEntry_setEntry (cache : SchemaCache) (pid q : String)
    (d : SchemaDescriptor) :
    lookupEntry (setEntry cache pid d) q =
      if q = pid then some d else lookupEntry cache q := by
  rw [setEntry, lookupEntry_cons, lookupEntry_removeEntry]
  by_cases h : q = pid
  · subst h; simp
  · rw [if_neg (fun hh => h hh.symm), if_neg h, if_neg h]

/-- Restoring the pre-run backup over any run of `applyPlanToCache` puts
every cache entry back to its pre-run content. -/
theorem lookupEntry_restore_applied (cache : SchemaCache) (pid : String)
    (steps : List MigrationStep) (q : String) :
    lookupEntry
        (restoreEntry (applyPlanToCache cache pid steps) pid (lookupEntry cache pid)) q
      = lookupEntry cache q := by
  cases hb : lookupEntry cache pid with
  | none =>
    rw [applyPlanToCache, hb]
    show lookupEntry (removeEntry cache pid) q = lookupEntry cache q
    rw [lookupEntry_removeEntry]
    split
    · next hq => rw [hq, hb]
    · rfl
  | some d =>
    rw [applyPlanToCache, hb]
    show lookupEntry (setEntry (setEntry cache pid (steps.foldl applyStep d)) pid d) q
      = lookupEntry cache q
    rw [lookupEntry_setEntry, lookupEntry_setEntry]
    split
    · next hq => rw [hq, hb]
    · rfl

/-- A classification that is not Breaking is Safe. -/
theorem classification_ne_breaking (c : Classification) :
    ¬ c = Classification.Breaking ↔ c = Classification.Safe := by
  cases c <;> simp

/-- A plan is flagged Breaking exactly when one of its steps classifies as
Breaking. -/
theorem planIsBreaking_iff (p : MigrationPlan) :
    planIsBreaking p = true ↔
      ∃ s ∈ p.steps, classifyStep s.stepType = Classification.Breaking := by
  simp [planIsBreaking, List.any_eq_true]

/-- A plan is not flagged Breaking exactly when every step classifies as
Safe. -/
theorem planIsBreaking_eq_false_iff (p : MigrationPlan) :
    planIsBreaking p = false ↔
      ∀ s ∈ p.steps, classifyStep s.stepType = Classification.Safe := by
  rw [← Bool.not_eq_true, planIsBreaking_iff]
  push_neg
  exact forall₂_congr (fun s _ => classification_ne_breaking _)

/-- C3: an execution attempt that ends in any non-committed terminal
outcome (backup failure, a failure during Applying, or a validation
mismatch) leaves every SchemaCache entry — in particular the executed
provider's — byte-for-byte identical to its pre-execution content: a
failed run never leaves the cache partially mutated. -/
theorem failed_run_preserves_cache (cache : SchemaCache) (p : MigrationPlan)
    (fault : ExecFault) (h : fault ≠ ExecFault.ok) (q : String) :
    lookupEntry (runExecutor cache p fault).1 q = lookupEntry cache q := by
  cases fault with
  | ok => exact absurd rfl h
  | backupFailure => rfl
  | applyFailure k =>
    exact lookupEntry_restore_applied cache p.providerId (p.steps.take k) q
  | validationMismatch =>
    exact lookupEntry_restore_applied cache p.providerId p.steps q

/-- Witness for C3: a validation mismatch on a concrete one-provider cache
leaves that provider's entry unchanged. -/
theorem failed_run_preserves_cache_witness :
    ExecFault.validationMismatch ≠ ExecFault.ok ∧
    lookupEntry (runExecutor cacheEx planBreakEx ExecFault.validationMismatch).1
        "observability_v1"
      = lookupEntry cacheEx "observability_v1" :=
  ⟨by decide,
   failed_run_preserves_cache cacheEx planBreakEx ExecFault.validationMismatch
     (by decide) "observability_v1"⟩

/-- C4: every execution attempt appends exactly one AuditRecord to the
audit log — never zero and never more than one — whether the attempt
commits, rolls back or fails outright. -/
theorem one_audit_record_per_attempt (st : EngineState) (p : MigrationPlan)
    (fault : ExecFault) :
    (executeAttempt st p fault).1.audit
        = st.audit ++ [(executeAttempt st p fault).2] ∧
    (executeAttempt st p fault).1.audit.length = st.audit.length + 1 := by
  refine ⟨rfl, ?_⟩
  simp [executeAttempt]

/-- C1: the Scheduler never auto-executes a plan containing a Breaking
step — the plan is stored as-is with status Pending and neither the cache
nor the audit log is touched — whereas a plan whose steps are all Safe is
immediately executed (one executor attempt, without manual approval). -/
theorem scheduler_auto_execution_policy (st : EngineState) (p : MigrationPlan)
    (fault : ExecFault) (hp : p.status = PlanStatus.Pending) :
    ((∃ s ∈ p.steps, classifyStep s.stepType = Classification.Breaking) →
       schedulerDispatch st p fault = { st with plans := st.plans ++ [p] } ∧
       p.status = PlanStatus.Pending) ∧
    ((∀ s ∈ p.steps, classifyStep s.stepType = Classification.Safe) →
       schedulerDispatch st p fault =
         (executeAttempt { st with plans := st.plans ++ [p] } p fault).1 ∧
       (schedulerDispatch st p fault).audit =
         st.audit ++ [(runExecutor st.cache p fault).2.2]) := by
  constructor
  · intro h
    have hb : planIsBreaking p = true := (planIsBreaking_iff p).mpr h
    exact ⟨by simp [schedulerDispatch, hb], hp⟩
  · intro h
    have hb : planIsBreaking p = false := (planIsBreaking_eq_false_iff p).mpr h
    refine ⟨by simp [schedulerDispatch, hb], ?_⟩
    simp [schedulerDispatch, hb, executeAttempt]

/-- Witness for C1: on a concrete engine state the one-Breaking-step plan
is left Pending without execution, and the all-Safe plan is immediately
executed with its audit record appended. -/
theorem scheduler_auto_execution_policy_witness :
    planBreakEx.status = PlanStatus.Pending ∧
    schedulerDispatch engineEx planBreakEx ExecFault.ok
      = { engineEx with plans := engineEx.plans ++ [planBreakEx] } ∧
    planSafeEx.status = PlanStatus.Pending ∧
    (schedulerDispatch engineEx planSafeEx ExecFault.ok).audit =
      engineEx.audit ++ [(runExecutor engineEx.cache planSafeEx ExecFault.ok).2.2] :=
  ⟨rfl,
   ((scheduler_auto_execution_policy engineEx planBreakEx ExecFault.ok rfl).1
     (by decide)).1,
   rfl,
   ((scheduler_auto_execution_policy engineEx planSafeEx ExecFault.ok rfl).2
     (by decide)).2⟩

/-- The column list after a valid swap. -/
theorem swapColumns_columns (d : SchemaDescriptor) (i j : Nat)
    (hi : i < d.columns.length) (hj : j < d.columns.length) :
    (swapColumns d i j).columns =
      (d.columns.set i (d.columns.get ⟨j, hj⟩)).set j (d.columns.get ⟨i, hi⟩) := by
  unfold swapColumns
  rw [List.getElem?_eq_getElem hi, List.getElem?_eq_getElem hj]
  rfl

/-- C5: the fingerprint is a deterministic pure function of the ordered
name/type/nullable/unique content — two descriptors with identical columns
in the same order always fingerprint identically — and swapping two
columns whose fingerprint tuples differ changes the fingerprint. -/
theorem fingerprint_deterministic_order_sensitive
    (d₁ d₂ d : SchemaDescriptor) (i j : Nat)
    (hlen : d₁.columns.length = d₂.columns.length)
    (hcols : ∀ (k : Nat) (h₁ : k < d₁.columns.length) (h₂ : k < d₂.columns.length),
       colKey (d₁.columns.get ⟨k, h₁⟩) = colKey (d₂.columns.get ⟨k, h₂⟩))
    (hi : i < d.columns.length) (hj : j < d.columns.length) (hij : i ≠ j)
    (hkey : colKey (d.columns.get ⟨i, hi⟩) ≠ colKey (d.columns.get ⟨j, hj⟩)) :
    fingerprint d₁ = fingerprint d₂ ∧
    fingerprint (swapColumns d i j) ≠ fingerprint d := by
  constructor
  · apply List.ext_getElem (by simpa [fingerprint] using hlen)
    intro k h₁ h₂
    simp only [fingerprint, List.getElem_map]
    exact hcols k (by simpa [fingerprint] using h₁) (by simpa [fingerprint] using h₂)
  · intro heq
    have hswap := swapColumns_columns d i j hi hj
    have h2 : (fingerprint (swapColumns d i j))[i]? = (fingerprint d)[i]? := by
      rw [heq]
    simp only [fingerprint] at h2
    rw [hswap, List.getElem?_map, List.getElem?_map,
      List.getElem?_set_ne (fun h => hij h.symm), List.getElem?_set_self,
      List.getElem?_eq_getElem hi] at h2
    · exact hkey (Option.some.inj h2).symm
    · exact hi

/-- Witness for C5: the concrete two-column descriptor fingerprints
identically to itself, and swapping its two (distinct) columns changes the
fingerprint. -/
theorem fingerprint_deterministic_order_sensitive_witness :
    descEx.columns.length = descEx.columns.length ∧
    (0 : Nat) ≠ 1 ∧
    fingerprint descEx = fingerprint descEx ∧
    fingerprint (swapColumns descEx 0 1) ≠ fingerprint descEx :=
  ⟨rfl, by decide,
   (fingerprint_deterministic_order_sensitive descEx descEx descEx 0 1 rfl
      (fun k h₁ h₂ => rfl) (by decide) (by decide) (by decide) (by decide)).1,
   (fingerprint_deterministic_order_sensitive descEx descEx descEx 0 1 rfl
      (fun k h₁ h₂ => rfl) (by decide) (by decide) (by decide) (by decide)).2⟩

/-- If a predicate finds nothing in the first list, searching the
concatenation searches the second list. -/
theorem find?_append_of_none {α : Type} (l₁ l₂ : List α) (p : α → Bool)
    (h : l₁.find? p = none) : (l₁ ++ l₂).find? p = l₂.find? p := by
  induction l₁ with
  | nil => rfl
  | cons a t ih =>
    rw [List.find?_eq_none] at h
    have ha : p a = false := by
      have := h a (by simp)
      simpa using this
    rw [List.cons_append, List.find?_cons_of_neg _ (by simp [ha]), ih]
    rw [List.find?_eq_none]
    intro x hx
    simpa using h x (by simp [hx])

/-- C6: plan creation is idempotent — the plan id is the deterministic
function of providerId and the ordered step fingerprints, creating the
same plan twice returns the stored plan without duplicating it, and the
persisted document name is a function of the plan id alone. -/
theorem plan_creation_idempotent (plans : List MigrationPlan) (pid : String)
    (steps : List MigrationStep) :
    (createPlan plans pid steps).1.id = planIdOf pid steps ∧
    createPlan (createPlan plans pid steps).2 pid steps = createPlan plans pid steps ∧
    (∀ p q : MigrationPlan, p.id = q.id → planDocName p.id = planDocName q.id) := by
  refine ⟨?_, ?_, fun p q h => by rw [h]⟩
  · unfold createPlan
    cases hf : plans.find? (fun q => decide (q.id = planIdOf pid steps)) with
    | none => rfl
    | some q =>
      have := List.find?_some hf
      simpa using of_decide_eq_true (by simpa using this)
  · unfold createPlan
    cases hf : plans.find? (fun q => decide (q.id = planIdOf pid steps)) with
    | none =>
      simp only
      rw [find?_append_of_none _ _ _ hf]
      rw [List.find?_cons_of_pos _ (by simp)]
    | some q => simp [hf]

/-- Witness for C6: creating the concrete one-step plan twice from the
empty store returns the stored plan and does not duplicate it. -/
theorem plan_creation_idempotent_witness :
    createPlan (createPlan [] "observability_v1" [stepAddEx]).2
        "observability_v1" [stepAddEx]
      = createPlan [] "observability_v1" [stepAddEx] :=
  (plan_creation_idempotent [] "observability_v1" [stepAddEx]).2.1

/-- Finding a plan by id still succeeds after a status write to that id,
returning the plan with the written status. -/
theorem findPlan_setPlanStatus (plans : List MigrationPlan) (id : PlanId)
    (s : PlanStatus) (p : MigrationPlan) (h : findPlan plans id = some p) :
    findPlan (setPlanStatus plans id s) id = some { p with status := s } := by
  induction plans with
  | nil => simp [findPlan] at h
  | cons q t ih =>
    by_cases hq : q.id = id
    · rw [findPlan, List.find?_cons_of_pos _ (by simp [hq])] at h
      have hqp : q = p := by injection h
      subst hqp
      rw [setPlanStatus, List.map_cons, if_pos hq, findPlan,
        List.find?_cons_of_pos _ (by simp [hq])]
    · rw [findPlan, List.find?_cons_of_neg _ (by simp [hq])] at h
      rw [setPlanStatus, List.map_cons, if_neg hq, findPlan,
        List.find?_cons_of_neg _ (by simp [hq])]
      exact ih h

/-- The id of a found plan is the id it was looked up by. -/
theorem findPlan_id (plans : List MigrationPlan) (id : PlanId)
    (p : MigrationPlan) (h : findPlan plans id = some p) : p.id = id := by
  have := List.find?_some h
  exact of_decide_eq_true (by simpa using this)

/-- C7: executing the same Pending plan twice in sequence executes it once
— the second call is rejected with PlanConflictError and the state is
unchanged, so the SchemaCache is mutated exactly once across both calls —
and a request for a provider whose migration is already in flight is
rejected with PlanConflictError (state unchanged, not queued). -/
theorem execute_plan_conflict (st : EngineState) (id : PlanId)
    (p : MigrationPlan) (fault₂ : ExecFault)
    (hfind : findPlan st.plans id = some p)
    (hpend : p.status = PlanStatus.Pending)
    (hflight : st.inFlight.any (fun q => decide (q = p.providerId)) = false) :
    executePlanRequest (executePlanRequest st id ExecFault.ok).1 id fault₂
      = ((executePlanRequest st id ExecFault.ok).1, ExecResult.planConflictError) ∧
    (executePlanRequest st id ExecFault.ok).1.cache
      = applyPlanToCache st.cache p.providerId p.steps ∧
    (∀ (st' : EngineState) (id' : PlanId) (p' : MigrationPlan) (f : ExecFault),
       findPlan st'.plans id' = some p' →
       st'.inFlight.any (fun q => decide (q = p'.providerId)) = true →
       executePlanRequest st' id' f = (st', ExecResult.planConflictError)) := by
  have hid : p.id = id := findPlan_id st.plans id p hfind
  subst hid
  have hfirst : executePlanRequest st p.id ExecFault.ok
      = ((executeAttempt st p ExecFault.ok).1,
         ExecResult.executed (executeAttempt st p ExecFault.ok).2) := by
    rw [executePlanRequest, hfind]
    simp [hflight, hpend]
  refine ⟨?_, ?_, ?_⟩
  · have hplans : (executePlanRequest st p.id ExecFault.ok).1.plans
        = setPlanStatus st.plans p.id PlanStatus.Executed := by
      rw [hfirst]
      rfl
    have hfind₂ : findPlan (executePlanRequest st p.id ExecFault.ok).1.plans p.id
        = some { p with status := PlanStatus.Executed } := by
      rw [hplans]
      exact findPlan_setPlanStatus st.plans p.id PlanStatus.Executed p hfind
    have hflight₂ : (executePlanRequest st p.id ExecFault.ok).1.inFlight
        = st.inFlight := by
      rw [hfirst]
      rfl
    rw [executePlanRequest, hfind₂]
    simp [hflight₂, hflight]
  · rw [hfirst]
    rfl
  · intro st' id' p' f hf hin
    rw [executePlanRequest, hf]
    simp [hin]

/-- Witness for C7: on the concrete engine state holding one Pending safe
plan, the second execute call returns PlanConflictError with the state of
the first call unchanged. -/
theorem execute_plan_conflict_witness :
    findPlan engineEx.plans planSafeEx.id = some planSafeEx ∧
    planSafeEx.status = PlanStatus.Pending ∧
    executePlanRequest (executePlanRequest engineEx planSafeEx.id ExecFault.ok).1
        planSafeEx.id ExecFault.ok
      = ((executePlanRequest engineEx planSafeEx.id ExecFault.ok).1,
         ExecResult.planConflictError) :=
  ⟨by decide, rfl,
   (execute_plan_conflict engineEx planSafeEx.id planSafeEx ExecFault.ok
      (by decide) rfl rfl).1⟩

/-- C8: schema detection fails with SchemaDetectionError exactly on the
empty sample; otherwise it infers one column per position, typing each
column by attempting Integer, Float, Boolean, DateTime in that fixed
priority order with the 95% acceptance rule and falling through to
String, setting nullable exactly when some sampled value is empty or
missing, and unique exactly when the sampled non-null values are pairwise
distinct. -/
theorem schema_detection_algorithm
    (parses : ColumnType → String → Bool) (names : Nat → String)
    (pid : String) (rows : List (List String)) (vals : List String)
    (pf : String → Bool) (hrows : rows ≠ []) :
    detectSchema parses names pid [] = Except.error SchemaError.SchemaDetectionError ∧
    (∃ d, detectSchema parses names pid rows = Except.ok d ∧
       d.providerId = pid ∧
       d.columns.length = numCols rows ∧
       ∀ (j : Nat) (hj : j < d.columns.length),
         d.columns.get ⟨j, hj⟩ = detectColumn parses names rows j ∧
         ((d.columns.get ⟨j, hj⟩).nullable = true ↔
            ∃ v ∈ columnValues rows j, v = "") ∧
         ((d.columns.get ⟨j, hj⟩).unique = true ↔
            (nonEmptyValues (columnValues rows j)).Nodup) ∧
         (d.columns.get ⟨j, hj⟩).inferredType
           = inferColumnType parses (columnValues rows j)) ∧
    ((parseRatioOk (parses ColumnType.Integer) vals = true →
        inferColumnType parses vals = ColumnType.Integer) ∧
     (parseRatioOk (parses ColumnType.Integer) vals = false →
      parseRatioOk (parses ColumnType.Float) vals = true →
        inferColumnType parses vals = ColumnType.Float) ∧
     (parseRatioOk (parses ColumnType.Integer) vals = false →
      parseRatioOk (parses ColumnType.Float) vals = false →
      parseRatioOk (parses ColumnType.Boolean) vals = true →
        inferColumnType parses vals = ColumnType.Boolean) ∧
     (parseRatioOk (parses ColumnType.Integer) vals = false →
      parseRatioOk (parses ColumnType.Float) vals = false →
      parseRatioOk (parses ColumnType.Boolean) vals = false →
      parseRatioOk (parses ColumnType.DateTime) vals = true →
        inferColumnType parses vals = ColumnType.DateTime) ∧
     (parseRatioOk (parses ColumnType.Integer) vals = false →
      parseRatioOk (parses ColumnType.Float) vals = false →
      parseRatioOk (parses ColumnType.Boolean) vals = false →
      parseRatioOk (parses ColumnType.DateTime) vals = false →
        inferColumnType parses vals = ColumnType.String)) ∧
    (0 < (nonEmptyValues vals).length →
       (parseRatioOk pf vals = true ↔
         (95 : ℚ) / 100 ≤
           (((nonEmptyValues vals).filter pf).length : ℚ)
             / ((nonEmptyValues vals).length : ℚ))) := by
  refine ⟨rfl, ?_, ?_, ?_⟩
  · refine ⟨⟨pid, (List.range (numCols rows)).map (detectColumn parses names rows)⟩,
      ?_, rfl, by simp, ?_⟩
    · rw [detectSchema, if_neg (by simpa using hrows)]
    · intro j hj
      have hc : ((List.range (numCols rows)).map
            (detectColumn parses names rows)).get ⟨j, hj⟩
          = detectColumn parses names rows j := by
        simp [List.get_eq_getElem, List.getElem_map, List.getElem_range]
      refine ⟨hc, ?_, ?_, ?_⟩ <;> rw [hc]
      · simp [detectColumn, List.any_eq_true]
      · simp [detectColumn]
      · rfl
  · refine ⟨?_, ?_, ?_, ?_, ?_⟩ <;> intros <;>
      simp_all [inferColumnType, priorityOrder, List.find?]
  · intro hpos
    have hn : (0 : ℚ) < ((nonEmptyValues vals).length : ℚ) := by
      exact_mod_cast hpos
    rw [parseRatioOk, decide_eq_true_eq,
      div_le_div_iff₀ (by norm_num) hn]
    constructor
    · intro h
      have h' : (19 * (nonEmptyValues vals).length : ℚ)
          ≤ (20 * ((nonEmptyValues vals).filter pf).length : ℚ) := by
        exact_mod_cast h
      linarith
    · intro h
      have h' : (19 * (nonEmptyValues vals).length : ℚ)
          ≤ (20 * ((nonEmptyValues vals).filter pf).length : ℚ) := by
        linarith
      exact_mod_cast h'

/-- Witness for C8: the empty sample fails with SchemaDetectionError, and
the concrete three-row sample is detected. -/
theorem schema_detection_algorithm_witness :
    rowsEx ≠ [] ∧
    detectSchema parsesEx namesEx "observability_v1" []
      = Except.error SchemaError.SchemaDetectionError :=
  ⟨by decide,
   (schema_detection_algorithm parsesEx namesEx "observability_v1" rowsEx []
      (fun s => decide (s = "1")) (by decide)).1⟩

/-- Every element of a list is bounded by its foldr-max. -/
theorem le_foldr_max (l : List Nat) (x : Nat) (hx : x ∈ l) : x ≤ l.foldr max 0 := by
  induction l with
  | nil => cases hx
  | cons a t ih =>
    rcases List.mem_cons.mp hx with h | h
    · subst h; exact Nat.le_max_left _ _
    · exact Nat.le_trans (ih h) (Nat.le_max_right _ _)

/-- The tie-break order is total, so a lexicographically first candidate
always exists. -/
theorem lexLe_total (a b : List Char) : lexLe a b = true ∨ lexLe b a = true := by
  induction a generalizing b with
  | nil => left; rfl
  | cons c a' ih =>
    cases b with
    | nil => right; rfl
    | cons d b' =>
      by_cases h1 : c.toNat < d.toNat
      · left; simp [lexLe, h1]
      · by_cases h2 : d.toNat < c.toNat
        · right; simp [lexLe, h2]
        · rcases ih b' with h | h
          · left; simp [lexLe, h1, h2, h]
          · right; simp [lexLe, h1, h2, h]

/-- C9: for an unmatched previous column whose best-overlap target is `n`,
the Differ emits a single RenameColumn step — never a Remove+Add pair —
exactly when the best overlap score exceeds the documented 0.8 threshold,
the types are compatible and the column wins the lexicographic tie-break
among equal-score previous candidates; ties are recorded in the step
description, and otherwise the column yields an independent RemoveColumn
step. -/
theorem differ_rename_policy (p : ColumnDescriptor)
    (prevs news : List ColumnDescriptor) (n : ColumnDescriptor)
    (hbt : bestTarget p news = some n) :
    (overlapCount p n = bestOverlap p news ∧
      ∀ m ∈ news, overlapCount p m ≤ bestOverlap p news) ∧
    ((renameOrRemove p prevs news).stepType = StepType.RenameColumn ↔
       (renamePasses p n = true ∧
        isLexFirst p (tiedRivals p prevs news n) = true)) ∧
    (renamePasses p n = true →
     isLexFirst p (tiedRivals p prevs news n) = true →
       renameOrRemove p prevs news =
         { stepType := StepType.RenameColumn, columnName := p.name,
           oldValue := p.name, newValue := n.name,
           description := if 2 ≤ (tiedRivals p prevs news n).length
             then ambiguousRenameNote p n else renameNote p n }) ∧
    ((renameOrRemove p prevs news).stepType ≠ StepType.RenameColumn →
       renameOrRemove p prevs news = removeStepOf p) ∧
    (isLexFirst p (tiedRivals p prevs news n) = true ↔
       ∀ q ∈ tiedRivals p prevs news n, lexLe p.name.data q.name.data = true) ∧
    (renamePasses p n = true ↔
       (4 * p.sampleValues.length < 5 * overlapCount p n ∧
        typesCompatible p.inferredType n.inferredType = true)) ∧
    (0 < p.sampleValues.length →
       (exceedsThreshold (overlapCount p n) p.sampleValues.length = true ↔
         (8 : ℚ) / 10 <
           (overlapCount p n : ℚ) / (p.sampleValues.length : ℚ))) := by
  have hre : renameOrRemove p prevs news =
      (if renamePasses p n = true then
        if isLexFirst p (tiedRivals p prevs news n) = true then
          { stepType := StepType.RenameColumn, columnName := p.name,
            oldValue := p.name, newValue := n.name,
            description := if 2 ≤ (tiedRivals p prevs news n).length
              then ambiguousRenameNote p n else renameNote p n }
        else removeStepOf p
      else removeStepOf p) := by
    rw [renameOrRemove, hbt]
  refine ⟨⟨?_, ?_⟩, ?_, ?_, ?_, ?_, ?_, ?_⟩
  · have := List.find?_some hbt
    exact of_decide_eq_true (by simpa using this)
  · intro m hm
    exact le_foldr_max _ _ (List.mem_map_of_mem _ hm)
  · rw [hre]
    cases hP : renamePasses p n <;>
      cases hL : isLexFirst p (tiedRivals p prevs news n) <;>
      simp [removeStepOf]
  · intro hP hL
    rw [hre, if_pos hP, if_pos hL]
  · rw [hre]
    cases hP : renamePasses p n <;>
      cases hL : isLexFirst p (tiedRivals p prevs news n) <;>
      simp [removeStepOf]
  · simp [isLexFirst, List.all_eq_true]
  · simp [renamePasses, exceedsThreshold, Bool.and_eq_true, decide_eq_true_eq]
  · intro hpos
    have hn : (0 : ℚ) < (p.sampleValues.length : ℚ) := by exact_mod_cast hpos
    rw [exceedsThreshold, decide_eq_true_eq, div_lt_div_iff₀ (by norm_num) hn]
    constructor
    · intro h
      exact_mod_cast (by omega :
        8 * p.sampleValues.length < overlapCount p n * 10)
    · intro h
      have h' : 8 * p.sampleValues.length < overlapCount p n * 10 := by
        exact_mod_cast h
      omega

/-- Witness for C9: `obs_platform` fully value-overlaps the renamed
`monitoring_platform`, passes the threshold policy and yields a single
RenameColumn step. -/
theorem differ_rename_policy_witness :
    bestTarget colObsPlatform [colMonPlatform] = some colMonPlatform ∧
    renamePasses colObsPlatform colMonPlatform = true ∧
    (renameOrRemove colObsPlatform [colObsPlatform] [colMonPlatform]).stepType
      = StepType.RenameColumn :=
  ⟨by decide, by decide,
   ((differ_rename_policy colObsPlatform [colObsPlatform] [colMonPlatform]
      colMonPlatform (by decide)).2.1).mpr ⟨by decide, by decide⟩⟩

/-- A filtered list is non-empty exactly when some element satisfies the
filter. -/
theorem filter_length_pos_iff {α : Type} (l : List α) (f : α → Bool) :
    0 < (l.filter f).length ↔ ∃ a ∈ l, f a = true := by
  rw [List.length_pos_iff_exists_mem]
  simp [List.mem_filter]

/-- C10: filtering control scripts returns the whole map for an empty or
whitespace-only query; otherwise a script entry is kept — with its
complete, unmodified step list — exactly when its name contains the query
case-insensitively or at least one of its steps contains it in its name,
docstring or one of its parameters. -/
theorem filter_scripts_spec (query : String) (scripts : ScriptsMap) :
    (isBlankQuery query = true → filterScripts query scripts = scripts) ∧
    (isBlankQuery query = false →
      ∀ e : String × List ControlStep,
        e ∈ filterScripts query scripts ↔
          (e ∈ scripts ∧
            (containsSeq (lowerChars e.1) (lowerChars query) = true ∨
              ∃ s ∈ e.2, stepMatches (lowerChars query) s = true))) := by
  constructor
  · intro h
    rw [filterScripts, if_pos h]
  · intro h e
    rw [filterScripts, if_neg (by simp [h])]
    simp [List.mem_filter, Bool.or_eq_true, decide_eq_true_eq,
      filter_length_pos_iff, and_assoc]

/-- Witness for C10: the query `ENV` is not blank and keeps exactly the
script whose step parameter mentions `env`, with its full step list. -/
theorem filter_scripts_spec_witness :
    isBlankQuery "ENV" = false ∧
    (("deploy_check", [stepEnvEx]) ∈ filterScripts "ENV" scriptsMapEx ↔
      (("deploy_check", [stepEnvEx]) ∈ scriptsMapEx ∧
        (containsSeq (lowerChars "deploy_check") (lowerChars "ENV") = true ∨
          ∃ s ∈ [stepEnvEx], stepMatches (lowerChars "ENV") s = true))) :=
  ⟨by decide,
   (filter_scripts_spec "ENV" scriptsMapEx).2 (by decide)
     ("deploy_check", [stepEnvEx])⟩

/-- C2: the step classification is the fixed total map of the documented
policy table (Safe for AddColumn/IncreasePrecision/AddIndex, Breaking for
RemoveColumn/RenameColumn/ChangeType/ReduceSize), and a plan is Breaking
overall iff at least one of its steps is classified Breaking. -/
theorem classifier_fixed_table (p : MigrationPlan) :
    (classifyStep StepType.AddColumn = Classification.Safe ∧
     classifyStep StepType.IncreasePrecision = Classification.Safe ∧
     classifyStep StepType.AddIndex = Classification.Safe ∧
     classifyStep StepType.RemoveColumn = Classification.Breaking ∧
     classifyStep StepType.RenameColumn = Classification.Breaking ∧
     classifyStep StepType.ChangeType = Classification.Breaking ∧
     classifyStep StepType.ReduceSize = Classification.Breaking) ∧
    (planIsBreaking p = true ↔
      ∃ s ∈ p.steps, classifyStep s.stepType = Classification.Breaking) := by
  refine ⟨⟨rfl, rfl, rfl, rfl, rfl, rfl, rfl⟩, ?_⟩
  simp [planIsBreaking, List.any_eq_true]

end ControlsUx
